import Mathlib

/-!
Verification of the llmwarden credential reconciliation engine.

The definitions below are shallow embeddings of the Go source:
  - internal/controller/llmaccess_controller.go (Reconcile, isNamespaceAllowed,
    validateModels, getRotationInterval, parseDuration, setCondition)
  - internal/provisioner/apikey.go (ApiKeyProvisioner.Cleanup)
  - internal/provisioner/externalsecret.go (effectiveRefreshInterval)
  - internal/eso/adapter.go (V1Beta1Adapter.ParseSyncStatus)
  - the pod admission injector (PodInjector.Handle, shouldInject,
    injectCredentials, injectEnvVars, injectVolume)

Go machine integers (int, int64, time.Duration) are modelled as Int with
explicit 64-bit wraparound where an overflow is reachable.  Kubernetes API
calls are modelled by passing their outcomes as explicit inputs.
-/

/-- Two's-complement wraparound of an integer into the signed 64-bit range,
matching Go int64 arithmetic. -/
def wrap64 (x : Int) : Int :=
  (x + 2 ^ 63) % 2 ^ 64 - 2 ^ 63

/-- Go int64 multiplication (wraps on overflow). -/
def i64mul (a b : Int) : Int :=
  wrap64 (a * b)

/-- time.Minute in nanoseconds. -/
def nsPerMinute : Int := 60 * 1000000000

/-- time.Hour in nanoseconds. -/
def nsPerHour : Int := 3600 * 1000000000

/-- Largest value of a Go int on a 64-bit platform. -/
def maxInt64 : Nat := 2 ^ 63 - 1

/-- Numeric value of a decimal digit string, most significant digit first. -/
def digitsToNat (cs : List Char) : Nat :=
  cs.foldl (fun acc c => acc * 10 + (c.toNat - '0'.toNat)) 0

/-- strconv.Atoi restricted to the call site in parseDuration: the argument is
a non-empty run of ASCII digits, so the only error case left is the value not
fitting in a 64-bit int. -/
def atoi (ds : List Char) : Except String Int :=
  let n := digitsToNat ds
  if n ≤ maxInt64 then Except.ok (Int.ofNat n)
  else Except.error "invalid duration value: value out of range"

/-- parseDuration from llmaccess_controller.go.  The Go loop scans for the
first non-digit rune: an empty string, a leading non-digit, or an all-digit
string is an error; otherwise the digit prefix goes through strconv.Atoi and
the remainder must be exactly one of the units d, h, m.  The returned Int is
the time.Duration in nanoseconds, computed with Go int64 arithmetic. -/
def parseDuration (s : String) : Except String Int :=
  if s.data.isEmpty then Except.error "empty duration string"
  else if (s.data.takeWhile Char.isDigit).isEmpty then
    Except.error ("invalid duration format: " ++ s)
  else if (s.data.dropWhile Char.isDigit).isEmpty then
    Except.error ("missing duration unit in: " ++ s)
  else
    match atoi (s.data.takeWhile Char.isDigit) with
    | Except.error e => Except.error e
    | Except.ok value =>
      match s.data.dropWhile Char.isDigit with
      | ['d'] => Except.ok (i64mul (i64mul value 24) nsPerHour)
      | ['h'] => Except.ok (i64mul value nsPerHour)
      | ['m'] => Except.ok (i64mul value nsPerMinute)
      | _ =>
        Except.error
          ("unsupported duration unit: " ++ String.mk (s.data.dropWhile Char.isDigit))

/-- The duration value the Go switch computes for an accepted digit string and
unit character, in Go int64 arithmetic. -/
def durOf (n : Nat) (c : Char) : Int :=
  if c = 'd' then i64mul (i64mul (Int.ofNat n) 24) nsPerHour
  else if c = 'h' then i64mul (Int.ofNat n) nsPerHour
  else i64mul (Int.ofNat n) nsPerMinute

/-- metav1.Condition as used by the controller: type, status ("True"/"False"),
reason, message, last transition time, observed generation. -/
structure Condition where
  type : String
  status : String
  reason : String
  message : String
  lastTransitionTime : Nat
  observedGeneration : Nat
  deriving Repr, DecidableEq

/-- setCondition from llmaccess_controller.go: the first condition whose type
matches is updated in place (its transition time only when the status value
changed) and the loop returns; otherwise a new condition is appended. -/
def setCondition (gen now : Nat) (ctype status reason message : String) :
    List Condition → List Condition
  | [] => [⟨ctype, status, reason, message, now, gen⟩]
  | c :: rest =>
    if c.type = ctype then
      { c with
        status := status
        lastTransitionTime := if c.status ≠ status then now else c.lastTransitionTime
        reason := reason
        message := message
        observedGeneration := gen } :: rest
    else c :: setCondition gen now ctype status reason message rest

/-- The condition types present in a condition list, in order. -/
def condTypes (cs : List Condition) : List String :=
  cs.map (fun c => c.type)

/-- One call of setCondition, as data: the arguments of one invocation. -/
structure CondOp where
  gen : Nat
  now : Nat
  ctype : String
  status : String
  reason : String
  message : String
  deriving Repr, DecidableEq

/-- A sequence of setCondition calls applied left to right. -/
def applyCondOps (cs : List Condition) (ops : List CondOp) : List Condition :=
  ops.foldl (fun acc o => setCondition o.gen o.now o.ctype o.status o.reason o.message acc) cs

/-- metav1.LabelSelector restricted to matchLabels, which is the only form the
repository and its tests exercise; matchLabels is a conjunction of exact
key-value requirements, and an empty matchLabels selects everything. -/
structure LabelSelector where
  matchLabels : List (String × String)
  deriving Repr, DecidableEq

/-- Lookup of a key in a label map (modelled as an association list). -/
def lookupLabel (k : String) : List (String × String) → Option String
  | [] => none
  | (k2, v) :: rest => if k2 = k then some v else lookupLabel k rest

/-- selector.Matches(labels.Set l): every matchLabels pair must be present. -/
def labelsMatch (sel : LabelSelector) (lbls : List (String × String)) : Bool :=
  sel.matchLabels.all (fun kv => lookupLabel kv.1 lbls == some kv.2)

/-- AuthType from llmprovider_types.go. -/
inductive AuthType
  | apiKey
  | externalSecret
  | workloadIdentity
  deriving Repr, DecidableEq

/-- RotationConfig from llmprovider_types.go (strategy is irrelevant to the
reconciler paths modelled here). -/
structure RotationConfig where
  enabled : Bool
  interval : String
  deriving Repr, DecidableEq

/-- APIKeyAuth from llmprovider_types.go. -/
structure APIKeyAuth where
  secretRefName : String
  secretRefNamespace : String
  secretRefKey : String
  rotation : Option RotationConfig
  deriving Repr, DecidableEq

/-- AuthConfig from llmprovider_types.go (the externalSecret and
workloadIdentity payloads are not consulted by the embedded code paths). -/
structure AuthConfig where
  type : AuthType
  apiKey : Option APIKeyAuth
  deriving Repr, DecidableEq

/-- LLMProviderSpec fields consulted by the reconciler. -/
structure LLMProviderSpec where
  provider : String
  auth : AuthConfig
  allowedModels : List String
  namespaceSelector : Option LabelSelector
  deriving Repr, DecidableEq

/-- A cluster-scoped LLMProvider. -/
structure LLMProvider where
  name : String
  spec : LLMProviderSpec
  deriving Repr, DecidableEq

/-- EnvVarMapping from llmaccess_types.go. -/
structure EnvVarMapping where
  name : String
  secretKey : String
  deriving Repr, DecidableEq

/-- VolumeInjection from llmaccess_types.go. -/
structure VolumeInjection where
  mountPath : String
  readOnly : Bool
  deriving Repr, DecidableEq

/-- InjectionConfig from llmaccess_types.go. -/
structure InjectionConfig where
  env : List EnvVarMapping
  volume : Option VolumeInjection
  deriving Repr, DecidableEq

/-- AccessRotationConfig from llmaccess_types.go. -/
structure AccessRotationConfig where
  interval : String
  deriving Repr, DecidableEq

/-- LLMAccessSpec from llmaccess_types.go. -/
structure LLMAccessSpec where
  providerRefName : String
  models : List String
  secretName : String
  workloadSelector : Option LabelSelector
  injection : InjectionConfig
  rotation : Option AccessRotationConfig
  deriving Repr, DecidableEq

/-- corev1.ObjectReference fields the controller writes. -/
structure ObjectReference where
  kind : String
  nsName : String
  name : String
  deriving Repr, DecidableEq

/-- LLMAccessStatus from llmaccess_types.go; times are nanoseconds. -/
structure LLMAccessStatus where
  conditions : List Condition
  secretRef : Option ObjectReference
  lastRotation : Option Nat
  nextRotation : Option Nat
  provisionedModels : List String
  deriving Repr, DecidableEq

/-- An LLMAccess object: metadata fields used by Reconcile, spec and status. -/
structure LLMAccess where
  name : String
  nsName : String
  generation : Nat
  finalizers : List String
  deletionRequested : Bool
  spec : LLMAccessSpec
  status : LLMAccessStatus
  deriving Repr, DecidableEq

/-- getRotationInterval from llmaccess_controller.go: a present, non-empty and
parseable grant override wins; otherwise a configured, enabled, non-empty and
parseable provider interval; otherwise 0 (no rotation). -/
def getRotationInterval (access : LLMAccess) (provider : LLMProvider) : Int :=
  let fromProvider : Int :=
    match provider.spec.auth.apiKey with
    | none => 0
    | some ak =>
      match ak.rotation with
      | none => 0
      | some rc =>
        if rc.enabled = true ∧ rc.interval ≠ "" then
          match parseDuration rc.interval with
          | Except.ok d => d
          | Except.error _ => 0
        else 0
  match access.spec.rotation with
  | none => fromProvider
  | some r =>
    if r.interval ≠ "" then
      match parseDuration r.interval with
      | Except.ok d => d
      | Except.error _ => fromProvider
    else fromProvider

/-- effectiveRefreshInterval from externalsecret.go: a present, non-empty
grant rotation interval wins; else a non-empty provider refreshInterval; else
the fixed ESO default "1h". -/
def effectiveRefreshInterval (access : LLMAccess) (providerInterval : String) : String :=
  match access.spec.rotation with
  | some r =>
    if r.interval ≠ "" then r.interval
    else if providerInterval ≠ "" then providerInterval else "1h"
  | none => if providerInterval ≠ "" then providerInterval else "1h"

/-- isNamespaceAllowed from llmaccess_controller.go: no selector admits every
namespace; with a selector, a failed namespace lookup denies, otherwise the
namespace labels must match the selector.  The namespace lookup outcome is an
explicit input. -/
def isNamespaceAllowed (nsLabels : Option (List (String × String)))
    (provider : LLMProvider) : Bool :=
  match provider.spec.namespaceSelector with
  | none => true
  | some sel =>
    match nsLabels with
    | none => false
    | some lbls => labelsMatch sel lbls

/-- validateModels from llmaccess_controller.go: an empty allowedModels list
admits everything; otherwise every requested model must be in the list, and
the error message enumerates the offending models. -/
def validateModels (requestedModels : List String) (provider : LLMProvider) :
    Except String Unit :=
  if provider.spec.allowedModels.isEmpty then Except.ok ()
  else
    let notAllowed :=
      requestedModels.filter (fun m => ¬ provider.spec.allowedModels.contains m)
    if notAllowed.isEmpty then Except.ok ()
    else
      Except.error ("models not allowed: " ++ String.intercalate ", " notAllowed ++
        " (allowed models: " ++ String.intercalate ", " provider.spec.allowedModels ++ ")")

/-- The outcome of the client Delete call inside ApiKeyProvisioner.Cleanup. -/
inductive DeleteOutcome
  | success
  | notFound
  | failure (msg : String)
  deriving Repr, DecidableEq

/-- ApiKeyProvisioner.Cleanup from apikey.go: a NotFound delete result means
the secret is already gone and is success; any other delete error is wrapped
and returned. -/
def apiKeyCleanup (del : DeleteOutcome) : Except String Unit :=
  match del with
  | DeleteOutcome.success => Except.ok ()
  | DeleteOutcome.notFound => Except.ok ()
  | DeleteOutcome.failure e => Except.error ("failed to delete secret: " ++ e)

/-- Condition type and reason constants from llmaccess_controller.go. -/
def conditionTypeReady : String := "Ready"

def conditionTypeCredentialProvisioned : String := "CredentialProvisioned"

def reasonProviderNotFound : String := "ProviderNotFound"

def reasonNamespaceNotAllowed : String := "NamespaceNotAllowed"

def reasonModelNotAllowed : String := "ModelNotAllowed"

def reasonAuthTypeNotSupported : String := "AuthTypeNotSupported"

def reasonSecretCreated : String := "SecretCreated"

def reasonSecretUpdateFailed : String := "SecretUpdateFailed"

def reasonCredentialProvisioned : String := "CredentialProvisioned"

def reasonReconciliationError : String := "ReconciliationError"

def llmAccessFinalizer : String := "llmwarden.io/finalizer"

def nsPerSecond : Int := 1000000000

/-- The externally observable side effects of one reconciliation pass, in
program order. -/
inductive RAction
  | removeFinalizer
  | addFinalizer
  | updateObject
  | updateStatus
  | provisionSecret
  | cleanupSecret
  | emitEvent (etype reason : String)
  deriving Repr, DecidableEq

/-- ctrl.Result: Requeue flag and RequeueAfter in nanoseconds. -/
structure CtrlResult where
  requeue : Bool
  requeueAfter : Int
  deriving Repr, DecidableEq

/-- The environment of one reconciliation pass: the fetched LLMAccess (none =
not found), the fetched LLMProvider (none = not found), the namespace lookup
outcome, the provisionAPIKeySecret outcome, and whether object and status
writes succeed.  now is the wall clock in nanoseconds. -/
structure ReconcileInput where
  access : Option LLMAccess
  provider : Option LLMProvider
  nsLabels : Option (List (String × String))
  provisionError : Option String
  updateOk : Bool
  statusUpdateOk : Bool
  now : Nat
  deriving Repr, DecidableEq

/-- The outcome of one reconciliation pass: the returned ctrl.Result, the
returned error, the LLMAccess as last written, and the action trace. -/
structure ReconcileOutput where
  result : CtrlResult
  err : Option String
  access : Option LLMAccess
  actions : List RAction
  deriving Repr, DecidableEq

/-- r.setCondition on the status of an LLMAccess. -/
def setAccessCondition (a : LLMAccess) (now : Nat)
    (ctype status reason message : String) : LLMAccess :=
  { a with status := { a.status with
      conditions := setCondition a.generation now ctype status reason message
        a.status.conditions } }

/-- Reconcile from llmaccess_controller.go, as a function of the pass
environment.  Each branch mirrors the Go control flow: deletion handling,
finalizer attachment, provider resolution, namespace admission, model
validation, auth-type gate, provisioning, then status and requeue
computation. -/
def reconcile (inp : ReconcileInput) : ReconcileOutput :=
  match inp.access with
  | none => ⟨⟨false, 0⟩, none, none, []⟩
  | some a0 =>
    if a0.deletionRequested then
      if a0.finalizers.contains llmAccessFinalizer then
        let a1 := { a0 with
          finalizers := a0.finalizers.filter (fun f => f ≠ llmAccessFinalizer) }
        if inp.updateOk then
          ⟨⟨false, 0⟩, none, some a1, [RAction.removeFinalizer, RAction.updateObject]⟩
        else
          ⟨⟨false, 0⟩, some "failed to remove finalizer", some a1,
            [RAction.removeFinalizer, RAction.updateObject]⟩
      else ⟨⟨false, 0⟩, none, some a0, []⟩
    else if ¬ a0.finalizers.contains llmAccessFinalizer then
      let a1 := { a0 with finalizers := a0.finalizers ++ [llmAccessFinalizer] }
      if inp.updateOk then
        ⟨⟨true, 0⟩, none, some a1, [RAction.addFinalizer, RAction.updateObject]⟩
      else
        ⟨⟨false, 0⟩, some "failed to add finalizer", some a1,
          [RAction.addFinalizer, RAction.updateObject]⟩
    else
      match inp.provider with
      | none =>
        let msg := "LLMProvider " ++ a0.spec.providerRefName ++ " not found"
        let a1 := setAccessCondition a0 inp.now conditionTypeReady "False"
          reasonProviderNotFound msg
        let acts := [RAction.emitEvent "Warning" reasonProviderNotFound,
          RAction.updateStatus]
        if inp.statusUpdateOk then ⟨⟨false, 30 * nsPerSecond⟩, none, some a1, acts⟩
        else ⟨⟨false, 0⟩, some "failed to update status", some a1, acts⟩
      | some p =>
        if ¬ isNamespaceAllowed inp.nsLabels p then
          let msg := "Namespace " ++ a0.nsName ++ " is not allowed by LLMProvider " ++
            p.name
          let a1 := setAccessCondition a0 inp.now conditionTypeReady "False"
            reasonNamespaceNotAllowed msg
          let acts := [RAction.emitEvent "Warning" reasonNamespaceNotAllowed,
            RAction.updateStatus]
          if inp.statusUpdateOk then ⟨⟨false, 0⟩, none, some a1, acts⟩
          else ⟨⟨false, 0⟩, some "failed to update status", some a1, acts⟩
        else
          match validateModels a0.spec.models p with
          | Except.error e =>
            let a1 := setAccessCondition a0 inp.now conditionTypeReady "False"
              reasonModelNotAllowed e
            let acts := [RAction.emitEvent "Warning" reasonModelNotAllowed,
              RAction.updateStatus]
            if inp.statusUpdateOk then ⟨⟨false, 0⟩, none, some a1, acts⟩
            else ⟨⟨false, 0⟩, some "failed to update status", some a1, acts⟩
          | Except.ok _ =>
            if p.spec.auth.type ≠ AuthType.apiKey then
              let a1 := setAccessCondition a0 inp.now conditionTypeReady "False"
                reasonAuthTypeNotSupported
                "Auth type not yet supported (MVP supports apiKey only)"
              let acts := [RAction.updateStatus]
              if inp.statusUpdateOk then
                ⟨⟨false, 300 * nsPerSecond⟩, none, some a1, acts⟩
              else ⟨⟨false, 0⟩, some "failed to update status", some a1, acts⟩
            else
              match inp.provisionError with
              | some e =>
                let a1 := setAccessCondition a0 inp.now conditionTypeReady "False"
                  reasonReconciliationError ("Failed to provision credentials: " ++ e)
                let a2 := setAccessCondition a1 inp.now
                  conditionTypeCredentialProvisioned "False" reasonSecretUpdateFailed e
                let acts := [RAction.provisionSecret,
                  RAction.emitEvent "Warning" reasonSecretUpdateFailed,
                  RAction.updateStatus]
                if inp.statusUpdateOk then
                  ⟨⟨false, 30 * nsPerSecond⟩, some e, some a2, acts⟩
                else ⟨⟨false, 0⟩, some "failed to update status", some a2, acts⟩
              | none =>
                let rotationInterval := getRotationInterval a0 p
                let aS := { a0 with status := { a0.status with
                  secretRef := some ⟨"Secret", a0.nsName, a0.spec.secretName⟩
                  lastRotation := some inp.now
                  provisionedModels := a0.spec.models
                  nextRotation :=
                    if rotationInterval > 0 then some (inp.now + rotationInterval.toNat)
                    else a0.status.nextRotation } }
                let a1 := setAccessCondition aS inp.now
                  conditionTypeCredentialProvisioned "True" reasonSecretCreated
                  "Secret created/updated successfully"
                let a2 := setAccessCondition a1 inp.now conditionTypeReady "True"
                  reasonCredentialProvisioned "Credentials provisioned and ready"
                let acts := [RAction.provisionSecret, RAction.updateStatus,
                  RAction.emitEvent "Normal" reasonCredentialProvisioned]
                if inp.statusUpdateOk then
                  ⟨⟨false, if rotationInterval > 0 then rotationInterval else 0⟩,
                    none, some a2, acts⟩
                else ⟨⟨false, 0⟩, some "failed to update status", some a2, acts⟩

/-- corev1.EnvVar as the injector sees it: either a literal value or a
reference to a key of a named secret. -/
inductive EnvVar
  | plain (name value : String)
  | fromSecret (name secretName key : String)
  deriving Repr, DecidableEq

/-- corev1.VolumeMount fields the injector writes. -/
structure VolumeMount where
  name : String
  mountPath : String
  readOnly : Bool
  deriving Repr, DecidableEq

/-- A container: env list and volume mounts (the only fields the injector
touches). -/
structure Container where
  env : List EnvVar
  volumeMounts : List VolumeMount
  deriving Repr, DecidableEq

/-- A pod volume backed by a secret (the only volume source the injector
creates). -/
structure Volume where
  name : String
  secretName : String
  deriving Repr, DecidableEq

/-- A pod: the metadata and spec fields the injector reads or writes. -/
structure Pod where
  name : String
  nsName : String
  labels : List (String × String)
  annotations : List (String × String)
  containers : List Container
  initContainers : List Container
  volumes : List Volume
  deriving Repr, DecidableEq

/-- Map-style upsert on an annotation association list. -/
def setAnn (anns : List (String × String)) (k v : String) :
    List (String × String) :=
  match anns with
  | [] => [(k, v)]
  | (k2, v2) :: rest => if k2 = k then (k, v) :: rest else (k2, v2) :: setAnn rest k v

/-- The two injection-tracking annotation keys from the pod injector. -/
def injectedProvidersKey : String := "llmwarden.io/injected-providers"

def injectionStatusKey : String := "llmwarden.io/injection-status"

/-- PodInjector.shouldInject: a grant with no workload selector never injects;
otherwise the pod labels must match the selector. -/
def shouldInject (pod : Pod) (access : LLMAccess) : Bool :=
  match access.spec.workloadSelector with
  | none => false
  | some sel => labelsMatch sel pod.labels

/-- PodInjector.injectEnvVars: one secret-reference env var per declared
mapping, appended to the env of every container and init container. -/
def injectEnvVars (pod : Pod) (access : LLMAccess) : Pod :=
  let envVars := access.spec.injection.env.map
    (fun m => EnvVar.fromSecret m.name access.spec.secretName m.secretKey)
  { pod with
    containers := pod.containers.map (fun c => { c with env := c.env ++ envVars })
    initContainers :=
      pod.initContainers.map (fun c => { c with env := c.env ++ envVars }) }

/-- PodInjector.injectVolume: one secret volume named after the grant, plus a
mount on every container and init container. -/
def injectVolume (pod : Pod) (access : LLMAccess) : Pod :=
  match access.spec.injection.volume with
  | none => pod
  | some vc =>
    let volumeName := "llmwarden-" ++ access.name
    let mount : VolumeMount := ⟨volumeName, vc.mountPath, vc.readOnly⟩
    { pod with
      volumes := pod.volumes ++ [⟨volumeName, access.spec.secretName⟩]
      containers :=
        pod.containers.map (fun c => { c with volumeMounts := c.volumeMounts ++ [mount] })
      initContainers :=
        pod.initContainers.map
          (fun c => { c with volumeMounts := c.volumeMounts ++ [mount] }) }

/-- PodInjector.injectCredentials: env injection when mappings are declared,
volume injection when a volume is declared. -/
def injectCredentials (pod : Pod) (access : LLMAccess) : Pod :=
  let p1 := if access.spec.injection.env.isEmpty then pod else injectEnvVars pod access
  match access.spec.injection.volume with
  | none => p1
  | some _ => injectVolume p1 access

/-- An admission response: reject with an HTTP code, allow unmodified, or
allow with a patch producing the given pod. -/
inductive AdmissionResponse
  | errored (code : Nat) (msg : String)
  | allowed (reason : String)
  | patched (pod : Pod)
  deriving Repr, DecidableEq

/-- PodInjector.Handle: decode failure rejects with 400; a failed grant list
allows unmodified (fail-open); otherwise every matching grant injects, and if
any matched the pod is annotated and returned as a patch. -/
def handle (decoded : Except String Pod)
    (listResult : Except String (List LLMAccess)) : AdmissionResponse :=
  match decoded with
  | Except.error e => AdmissionResponse.errored 400 ("failed to decode pod: " ++ e)
  | Except.ok pod =>
    match listResult with
    | Except.error _ =>
      AdmissionResponse.allowed "failed to list LLMAccess resources, allowing pod creation"
    | Except.ok items =>
      if items.isEmpty then AdmissionResponse.allowed "no LLMAccess resources in namespace"
      else
        let st := items.foldl
          (fun (st : Pod × List String × Bool) acc =>
            if shouldInject st.1 acc then
              (injectCredentials st.1 acc, st.2.1 ++ [acc.spec.providerRefName], true)
            else st)
          (pod, [], false)
        if ¬ st.2.2 then AdmissionResponse.allowed "no matching LLMAccess resources"
        else
          let p1 := st.1
          let newAnns := setAnn
            (setAnn p1.annotations injectedProvidersKey (String.intercalate "," st.2.1))
            injectionStatusKey "injected"
          AdmissionResponse.patched { p1 with annotations := newAnns }

/-- One entry of the status.conditions slice of an unstructured ExternalSecret
object: either not a JSON map at all, or a map whose type, status and message
entries (defaulted to "" by the discarded type assertions in the Go code) are
recorded. -/
inductive CondEntry
  | notMap
  | entry (ctype cstatus cmessage : String)
  deriving Repr, DecidableEq

/-- The normalized sync status returned by the ESO adapter. -/
structure SyncStatus where
  ready : Bool
  message : String
  deriving Repr, DecidableEq

/-- The loop of V1Beta1Adapter.ParseSyncStatus: skip non-map entries, return
at the first condition of type Ready, fall back when none is found. -/
def parseSyncConds : List CondEntry → SyncStatus
  | [] => ⟨false, "Ready condition not found in ExternalSecret status"⟩
  | CondEntry.notMap :: rest => parseSyncConds rest
  | CondEntry.entry t s m :: rest =>
    if t = "Ready" then ⟨s = "True", m⟩ else parseSyncConds rest

/-- V1Beta1Adapter.ParseSyncStatus: the outer Option is nil-ness of the object
itself; the inner Option is whether status.conditions was found as a slice. -/
def parseSyncStatus : Option (Option (List CondEntry)) → SyncStatus
  | none => ⟨false, "ExternalSecret is nil"⟩
  | some none => ⟨false, "no status conditions yet; ESO may still be syncing"⟩
  | some (some conds) => parseSyncConds conds

/-- The first condition of type Ready, skipping non-map entries: its status
and message. -/
def firstReady : List CondEntry → Option (String × String)
  | [] => none
  | CondEntry.notMap :: rest => firstReady rest
  | CondEntry.entry t s m :: rest =>
    if t = "Ready" then some (s, m) else firstReady rest

/-- The grant-level override as claim C2 words it: present, non-empty and
parseable (stated for comparison with getRotationInterval). -/
def specGrantOverride (access : LLMAccess) : Option Int :=
  match access.spec.rotation with
  | none => none
  | some r => if r.interval = "" then none else (parseDuration r.interval).toOption

/-- The declaration-level interval as claim C2 words it: rotation enabled,
interval non-empty and parseable (stated for comparison with
getRotationInterval). -/
def specProviderRotation (provider : LLMProvider) : Option Int :=
  match provider.spec.auth.apiKey with
  | none => none
  | some ak =>
    match ak.rotation with
    | none => none
    | some rc =>
      if rc.enabled = true ∧ rc.interval ≠ "" then (parseDuration rc.interval).toOption
      else none

/-- The grant-level refresh override as claim C2 words it: present and
non-empty (stated for comparison with effectiveRefreshInterval). -/
def specGrantOverrideRaw (access : LLMAccess) : Option String :=
  match access.spec.rotation with
  | none => none
  | some r => if r.interval = "" then none else some r.interval

/-- Concrete inputs exercising the namespace-denied branch. -/
def c3Access : LLMAccess :=
  ⟨"a", "ns", 1, ["llmwarden.io/finalizer"], false,
    ⟨"prov", ["gpt-4o"], "sec", none, ⟨[], none⟩, none⟩, ⟨[], none, none, none, []⟩⟩

def c3Provider : LLMProvider :=
  ⟨"prov", ⟨"openai", ⟨AuthType.apiKey, none⟩, [],
    some ⟨[("ai-tier", "production")]⟩⟩⟩

def c3Input : ReconcileInput :=
  ⟨some c3Access, some c3Provider, some [("ai-tier", "development")], none,
    true, true, 0⟩

/-- Concrete inputs exercising the model-denied branch. -/
def c4Provider : LLMProvider :=
  ⟨"prov", ⟨"openai", ⟨AuthType.apiKey, none⟩, ["gpt-4o", "gpt-4o-mini"], none⟩⟩

def c4Access : LLMAccess :=
  ⟨"a", "ns", 1, ["llmwarden.io/finalizer"], false,
    ⟨"prov", ["gpt-4-turbo"], "sec", none, ⟨[], none⟩, none⟩,
    ⟨[], none, none, none, []⟩⟩

def c4Input : ReconcileInput :=
  ⟨some c4Access, some c4Provider, none, none, true, true, 0⟩

/-- Concrete inputs exercising the deletion branch. -/
def c1Access : LLMAccess :=
  ⟨"a", "ns", 1, ["llmwarden.io/finalizer"], true,
    ⟨"prov", ["gpt-4o"], "sec", none, ⟨[], none⟩, none⟩, ⟨[], none, none, none, []⟩⟩

def c1Input : ReconcileInput :=
  ⟨some c1Access, none, none, none, true, true, 0⟩

/-- A concrete grant and pod exercising the injection path. -/
def c5Access : LLMAccess :=
  ⟨"grant1", "ns", 1, [], false,
    ⟨"openai", ["gpt-4o"], "sec", some ⟨[("app", "x")]⟩,
      ⟨[⟨"OPENAI_API_KEY", "apiKey"⟩], none⟩, none⟩,
    ⟨[], none, none, none, []⟩⟩

def c5Pod : Pod := ⟨"p", "ns", [("app", "x")], [], [⟨[], []⟩], [], []⟩

theorem takeWhile_append_unit (p : Char → Bool) (ds : List Char) (c : Char)
    (hds : ∀ x ∈ ds, p x = true) (hc : p c = false) :
    (ds ++ [c]).takeWhile p = ds ∧ (ds ++ [c]).dropWhile p = [c] := by
  induction ds with
  | nil => simp [List.takeWhile, List.dropWhile, hc]
  | cons a t ih =>
    have ha : p a = true := hds a (by simp)
    have ht : ∀ x ∈ t, p x = true := fun x hx => hds x (by simp [hx])
    obtain ⟨h1, h2⟩ := ih ht
    simp [List.takeWhile_cons, List.dropWhile_cons, ha, h1, h2]

theorem parseDuration_eval (ds : List Char) (c : Char) (hne : ds ≠ [])
    (hdig : ∀ x ∈ ds, x.isDigit = true) (hc : c = 'd' ∨ c = 'h' ∨ c = 'm')
    (hbound : digitsToNat ds ≤ maxInt64) :
    parseDuration (String.mk (ds ++ [c])) = Except.ok (durOf (digitsToNat ds) c) := by
  have hcd : c.isDigit = false := by
    rcases hc with rfl | rfl | rfl <;> decide
  obtain ⟨ht, hd⟩ := takeWhile_append_unit Char.isDigit ds c hdig hcd
  have hdata : (String.mk (ds ++ [c])).data = ds ++ [c] := rfl
  have hnonempty : (ds ++ [c]).isEmpty = false := by
    cases ds <;> simp [List.isEmpty]
  have hdsne : ds.isEmpty = false := by
    cases ds with
    | nil => exact absurd rfl hne
    | cons a t => simp [List.isEmpty]
  have hatoi : atoi ds = Except.ok (Int.ofNat (digitsToNat ds)) := by
    simp [atoi, hbound]
  unfold parseDuration
  rw [hdata]
  simp only [hnonempty, Bool.false_eq_true, if_false, ht, hd, hdsne, hatoi]
  rcases hc with rfl | rfl | rfl <;> simp [durOf]

theorem parseDuration_isOk_iff (s : String) :
    (parseDuration s).isOk = true ↔
      ∃ ds c, s.data = ds ++ [c] ∧ ds ≠ [] ∧ (∀ x ∈ ds, x.isDigit = true) ∧
        (c = 'd' ∨ c = 'h' ∨ c = 'm') ∧ digitsToNat ds ≤ maxInt64 := by
  constructor
  · intro h
    unfold parseDuration at h
    split at h
    · simp [Except.isOk, Except.toBool] at h
    next hne =>
      by_cases hds : (s.data.takeWhile Char.isDigit).isEmpty
      · simp only [hds, if_true] at h
        simp [Except.isOk, Except.toBool] at h
      by_cases hus : (s.data.dropWhile Char.isDigit).isEmpty
      · simp only [hds, hus, Bool.false_eq_true, if_false, if_true] at h
        simp [Except.isOk, Except.toBool] at h
      simp only [hds, hus, Bool.false_eq_true, if_false] at h
      rcases hA : atoi (s.data.takeWhile Char.isDigit) with e | v
      · rw [hA] at h
        simp [Except.isOk, Except.toBool] at h
      rw [hA] at h
      have hbound : digitsToNat (s.data.takeWhile Char.isDigit) ≤ maxInt64 := by
        by_contra hb
        simp [atoi, hb] at hA
      have hsplit := List.takeWhile_append_dropWhile Char.isDigit s.data
      have hdigits : ∀ x ∈ s.data.takeWhile Char.isDigit, x.isDigit = true :=
        fun x hx => List.mem_takeWhile_imp hx
      have htne : s.data.takeWhile Char.isDigit ≠ [] := by
        intro hcon
        rw [hcon] at hds
        simp [List.isEmpty] at hds
      split at h
      next hO => simp at hO
      next hO =>
        split at h
        next hU =>
          exact ⟨s.data.takeWhile Char.isDigit, 'd', by rw [← hU]; exact hsplit.symm,
            htne, hdigits, Or.inl rfl, hbound⟩
        next hU =>
          exact ⟨s.data.takeWhile Char.isDigit, 'h', by rw [← hU]; exact hsplit.symm,
            htne, hdigits, Or.inr (Or.inl rfl), hbound⟩
        next hU =>
          exact ⟨s.data.takeWhile Char.isDigit, 'm', by rw [← hU]; exact hsplit.symm,
            htne, hdigits, Or.inr (Or.inr rfl), hbound⟩
        next =>
          simp [Except.isOk, Except.toBool] at h
  · rintro ⟨ds, c, hs, hne, hdig, hc, hbound⟩
    have hmk : String.mk (ds ++ [c]) = s := by
      cases s
      simp at hs
      rw [hs]
    rw [← hmk, parseDuration_eval ds c hne hdig hc hbound]
    rfl

theorem condTypes_cons (c : Condition) (l : List Condition) :
    condTypes (c :: l) = c.type :: condTypes l := rfl

theorem setCondition_condTypes (g n : Nat) (t s r m : String) (cs : List Condition) :
    condTypes (setCondition g n t s r m cs) =
      if t ∈ condTypes cs then condTypes cs else condTypes cs ++ [t] := by
  induction cs with
  | nil => simp [setCondition, condTypes]
  | cons c rest ih =>
    by_cases hc : c.type = t
    · simp [setCondition, hc, condTypes]
    · have hne : ¬ t = c.type := fun h => hc h.symm
      simp only [setCondition, hc, if_false, condTypes_cons, ih]
      by_cases hmem : t ∈ condTypes rest
      · simp [List.mem_cons, hmem, hne]
      · simp [List.mem_cons, hmem, hne]

theorem setCondition_nodup (g n : Nat) (t s r m : String) (cs : List Condition)
    (h : (condTypes cs).Nodup) : (condTypes (setCondition g n t s r m cs)).Nodup := by
  rw [setCondition_condTypes]
  split
  · exact h
  next hmem => simp [List.nodup_append, h, hmem]

theorem applyCondOps_nodup (ops : List CondOp) (cs : List Condition)
    (h : (condTypes cs).Nodup) : (condTypes (applyCondOps cs ops)).Nodup := by
  induction ops generalizing cs with
  | nil => exact h
  | cons o rest ih =>
    exact ih _ (setCondition_nodup o.gen o.now o.ctype o.status o.reason o.message cs h)

theorem setCondition_find (g n : Nat) (t s r m : String) (cs : List Condition) :
    ∃ c1, (setCondition g n t s r m cs).find? (fun c => c.type == t) = some c1 ∧
      c1.type = t ∧ c1.status = s ∧ c1.reason = r ∧ c1.message = m := by
  induction cs with
  | nil =>
    refine ⟨⟨t, s, r, m, n, g⟩, ?_, rfl, rfl, rfl, rfl⟩
    simp [setCondition, List.find?]
  | cons c rest ih =>
    by_cases hc : c.type = t
    · refine ⟨{ c with
          status := s
          lastTransitionTime := if c.status ≠ s then n else c.lastTransitionTime
          reason := r
          message := m
          observedGeneration := g }, ?_, hc, rfl, rfl, rfl⟩
      simp only [setCondition, hc, if_true]
      exact List.find?_cons_of_pos _ (by simpa using hc)
    · obtain ⟨c1, hfind, hty, hst, hr, hm⟩ := ih
      refine ⟨c1, ?_, hty, hst, hr, hm⟩
      simp only [setCondition, hc, if_false]
      rw [List.find?_cons_of_neg _ (by simpa using hc)]
      exact hfind

theorem setCondition_time_preserved (g n : Nat) (t s r m : String)
    (cs : List Condition) (c0 : Condition)
    (h : cs.find? (fun c => c.type == t) = some c0) (hst : c0.status = s) :
    ∃ c1, (setCondition g n t s r m cs).find? (fun c => c.type == t) = some c1 ∧
      c1.lastTransitionTime = c0.lastTransitionTime := by
  induction cs with
  | nil => simp [List.find?] at h
  | cons c rest ih =>
    by_cases hc : c.type = t
    · rw [List.find?_cons_of_pos _ (by simpa using hc)] at h
      have hc0 : c = c0 := by injection h
      subst hc0
      refine ⟨{ c with
          status := s
          lastTransitionTime := if c.status ≠ s then n else c.lastTransitionTime
          reason := r
          message := m
          observedGeneration := g }, ?_, ?_⟩
      · simp only [setCondition, hc, if_true]
        exact List.find?_cons_of_pos _ (by simpa using hc)
      · simp [hst]
    · rw [List.find?_cons_of_neg _ (by simpa using hc)] at h
      obtain ⟨c1, hfind, htime⟩ := ih h
      refine ⟨c1, ?_, htime⟩
      simp only [setCondition, hc, if_false]
      rw [List.find?_cons_of_neg _ (by simpa using hc)]
      exact hfind

theorem setCondition_time_flipped (g n : Nat) (t s r m : String)
    (cs : List Condition) (c0 : Condition)
    (h : cs.find? (fun c => c.type == t) = some c0) (hst : c0.status ≠ s) :
    ∃ c1, (setCondition g n t s r m cs).find? (fun c => c.type == t) = some c1 ∧
      c1.lastTransitionTime = n ∧ c1.status = s := by
  induction cs with
  | nil => simp [List.find?] at h
  | cons c rest ih =>
    by_cases hc : c.type = t
    · rw [List.find?_cons_of_pos _ (by simpa using hc)] at h
      have hc0 : c = c0 := by injection h
      subst hc0
      refine ⟨{ c with
          status := s
          lastTransitionTime := if c.status ≠ s then n else c.lastTransitionTime
          reason := r
          message := m
          observedGeneration := g }, ?_, ?_, rfl⟩
      · simp only [setCondition, hc, if_true]
        exact List.find?_cons_of_pos _ (by simpa using hc)
      · simp [hst]
    · rw [List.find?_cons_of_neg _ (by simpa using hc)] at h
      obtain ⟨c1, hfind, htime, hs1⟩ := ih h
      refine ⟨c1, ?_, htime, hs1⟩
      simp only [setCondition, hc, if_false]
      rw [List.find?_cons_of_neg _ (by simpa using hc)]
      exact hfind

/-- C7: counterexample.  The claim admits exactly positive integers followed
by a unit and demands a parse error for every other string, but "0d" — whose
integer part is zero, not positive — is accepted by parseDuration with
duration 0 instead of being rejected. -/
theorem c7_counterexample_zero_accepted : parseDuration "0d" = Except.ok 0 := rfl

/-- C7 (amended): parseDuration accepts exactly the strings consisting of one
or more decimal digits whose value fits in a signed 64-bit int, followed by
exactly one of the units d, h, m; on acceptance it returns the digit value
times the unit (a day is 24 hours) in Go int64 arithmetic, so "7d" is 168
hours, "24h" is 24 hours, "30m" is 30 minutes; every other string, including
"invalid" and "7x", is a parse error. -/
theorem c7_parseDuration_exact :
    (∀ s : String,
      (parseDuration s).isOk = true ↔
        ∃ ds c, s.data = ds ++ [c] ∧ ds ≠ [] ∧ (∀ x ∈ ds, x.isDigit = true) ∧
          (c = 'd' ∨ c = 'h' ∨ c = 'm') ∧ digitsToNat ds ≤ maxInt64)
    ∧ (∀ ds c, ds ≠ [] → (∀ x ∈ ds, x.isDigit = true) →
        (c = 'd' ∨ c = 'h' ∨ c = 'm') → digitsToNat ds ≤ maxInt64 →
        parseDuration (String.mk (ds ++ [c])) = Except.ok (durOf (digitsToNat ds) c))
    ∧ parseDuration "7d" = Except.ok (168 * nsPerHour)
    ∧ parseDuration "24h" = Except.ok (24 * nsPerHour)
    ∧ parseDuration "30m" = Except.ok (30 * nsPerMinute)
    ∧ (parseDuration "invalid").isOk = false
    ∧ (parseDuration "7x").isOk = false :=
  ⟨parseDuration_isOk_iff, parseDuration_eval, rfl, rfl, rfl, rfl, rfl⟩

/-- Witness for c7_parseDuration_exact at the concrete input "3h". -/
theorem c7_witness :
    parseDuration (String.mk (['3'] ++ ['h'])) =
      Except.ok (durOf (digitsToNat ['3']) 'h') :=
  c7_parseDuration_exact.2.1 ['3'] 'h' (by decide) (by decide) (by decide) (by decide)

/-- C2: the effective rotation interval is the grant-level override when
present, non-empty and parseable, else the declaration-level interval when
enabled, non-empty and parseable, else 0; the delegated-sync refresh interval
follows the same grant-over-declaration precedence with fixed fallback "1h". -/
theorem c2_rotation_precedence :
    (∀ (access : LLMAccess) (provider : LLMProvider),
      getRotationInterval access provider =
        (specGrantOverride access).getD ((specProviderRotation provider).getD 0))
    ∧ (∀ (access : LLMAccess) (providerInterval : String),
      effectiveRefreshInterval access providerInterval =
        (specGrantOverrideRaw access).getD
          (if providerInterval = "" then "1h" else providerInterval)) := by
  constructor
  · intro access provider
    have hp : (match provider.spec.auth.apiKey with
        | none => (0 : Int)
        | some ak =>
          match ak.rotation with
          | none => 0
          | some rc =>
            if rc.enabled = true ∧ rc.interval ≠ "" then
              match parseDuration rc.interval with
              | Except.ok d => d
              | Except.error _ => 0
            else 0) = (specProviderRotation provider).getD 0 := by
      unfold specProviderRotation
      rcases hak : provider.spec.auth.apiKey with _ | ak
      · simp
      · rcases hrc : ak.rotation with _ | rc
        · simp [hrc]
        · by_cases he : rc.enabled = true ∧ rc.interval ≠ ""
          · rcases hd : parseDuration rc.interval with e | d <;>
              simp [hrc, he, hd, Except.toOption]
          · simp [hrc, he]
    unfold getRotationInterval specGrantOverride
    rcases hr : access.spec.rotation with _ | r
    · simpa using hp
    · by_cases hi : r.interval = ""
      · simp only [hi]
        simpa using hp
      · rcases hd : parseDuration r.interval with e | d
        · simpa [hi, hd, Except.toOption] using hp
        · simp [hi, hd, Except.toOption]
  · intro access providerInterval
    unfold effectiveRefreshInterval specGrantOverrideRaw
    rcases hr : access.spec.rotation with _ | r
    · by_cases hp : providerInterval = "" <;> simp [hp]
    · by_cases hi : r.interval = ""
      · by_cases hp : providerInterval = "" <;> simp [hi, hp]
      · simp [hi]

/-- C10: a grant whose workloadSelector is absent never injects into any pod,
whereas a present-but-empty selector matches every pod under label-selector
semantics. -/
theorem c10_nil_selector_never_injects :
    (∀ (pod : Pod) (access : LLMAccess), access.spec.workloadSelector = none →
      shouldInject pod access = false)
    ∧ (∀ (pod : Pod) (access : LLMAccess),
      access.spec.workloadSelector = some ⟨[]⟩ → shouldInject pod access = true) := by
  constructor
  · intro pod access h
    simp [shouldInject, h]
  · intro pod access h
    simp [shouldInject, h, labelsMatch]

/-- Witness for c10_nil_selector_never_injects on a concrete pod and grants
with an absent and an empty selector. -/
theorem c10_witness :
    shouldInject ⟨"p", "ns", [("app", "x")], [], [], [], []⟩
      ⟨"a", "ns", 1, [], false, ⟨"prov", [], "s", none, ⟨[], none⟩, none⟩,
        ⟨[], none, none, none, []⟩⟩ = false ∧
    shouldInject ⟨"p", "ns", [("app", "x")], [], [], [], []⟩
      ⟨"a", "ns", 1, [], false, ⟨"prov", [], "s", some ⟨[]⟩, ⟨[], none⟩, none⟩,
        ⟨[], none, none, none, []⟩⟩ = true :=
  ⟨c10_nil_selector_never_injects.1 _ _ rfl, c10_nil_selector_never_injects.2 _ _ rfl⟩

theorem parseSyncConds_eq_firstReady (cs : List CondEntry) :
    parseSyncConds cs =
      match firstReady cs with
      | none => ⟨false, "Ready condition not found in ExternalSecret status"⟩
      | some (s, m) => ⟨s = "True", m⟩ := by
  induction cs with
  | nil => rfl
  | cons c rest ih =>
    cases c with
    | notMap => simpa [parseSyncConds, firstReady] using ih
    | entry t s m =>
      by_cases ht : t = "Ready"
      · simp [parseSyncConds, firstReady, ht]
      · simpa [parseSyncConds, firstReady, ht] using ih

/-- C8: counterexample.  On a condition list carrying two Ready-typed entries,
the first with status "False" and the second with status "True", the adapter
returns ready=false although a condition of type Ready with status "True" is
present in the object. -/
theorem c8_counterexample_duplicate_ready :
    parseSyncStatus (some (some [CondEntry.entry "Ready" "False" "not yet",
      CondEntry.entry "Ready" "True" "synced"])) =
      { ready := false, message := "not yet" } ∧
    CondEntry.entry "Ready" "True" "synced" ∈
      [CondEntry.entry "Ready" "False" "not yet",
        CondEntry.entry "Ready" "True" "synced"] :=
  ⟨rfl, by decide⟩

/-- C8 (amended): ParseSyncStatus is total — a nil object and a missing
status.conditions slice give ready=false with a non-empty message; on a
condition list the result is fully determined by the first condition of type
Ready (non-map entries are skipped), whose message is returned and whose
status decides readiness: ready is true exactly when that first Ready entry
has status "True"; when no Ready entry exists the result is ready=false with
a non-empty message. -/
theorem c8_parse_sync_status_total :
    ((parseSyncStatus none).ready = false ∧ (parseSyncStatus none).message ≠ "")
    ∧ ((parseSyncStatus (some none)).ready = false ∧
        (parseSyncStatus (some none)).message ≠ "")
    ∧ (∀ cs, parseSyncStatus (some (some cs)) =
        match firstReady cs with
        | none => ⟨false, "Ready condition not found in ExternalSecret status"⟩
        | some (s, m) => ⟨s = "True", m⟩)
    ∧ (∀ cs, (parseSyncStatus (some (some cs))).ready = true ↔
        ∃ m, firstReady cs = some ("True", m))
    ∧ (∀ cs, firstReady cs = none →
        (parseSyncStatus (some (some cs))).ready = false ∧
        (parseSyncStatus (some (some cs))).message ≠ "") := by
  refine ⟨⟨rfl, by decide⟩, ⟨rfl, by decide⟩, ?_, ?_, ?_⟩
  · intro cs
    exact parseSyncConds_eq_firstReady cs
  · intro cs
    rw [show parseSyncStatus (some (some cs)) = parseSyncConds cs from rfl,
      parseSyncConds_eq_firstReady]
    rcases hf : firstReady cs with _ | ⟨s, m⟩
    · simp
    · constructor
      · intro hs
        refine ⟨m, ?_⟩
        have : s = "True" := by simpa using hs
        rw [this]
      · rintro ⟨m2, hm⟩
        have hs : s = "True" := congrArg Prod.fst (Option.some.inj hm)
        simp [hs]
  · intro cs hf
    rw [show parseSyncStatus (some (some cs)) = parseSyncConds cs from rfl,
      parseSyncConds_eq_firstReady, hf]
    exact ⟨rfl, by decide⟩

theorem reconcile_namespace_denied (inp : ReconcileInput) (a : LLMAccess)
    (p : LLMProvider) (hacc : inp.access = some a)
    (hdel : a.deletionRequested = false)
    (hfin : a.finalizers.contains llmAccessFinalizer = true)
    (hprov : inp.provider = some p)
    (hns : isNamespaceAllowed inp.nsLabels p = false)
    (hst : inp.statusUpdateOk = true) :
    reconcile inp = ⟨⟨false, 0⟩, none,
      some (setAccessCondition a inp.now conditionTypeReady "False"
        reasonNamespaceNotAllowed
        ("Namespace " ++ a.nsName ++ " is not allowed by LLMProvider " ++ p.name)),
      [RAction.emitEvent "Warning" reasonNamespaceNotAllowed, RAction.updateStatus]⟩ := by
  unfold reconcile
  rw [hacc]
  have hmem : llmAccessFinalizer ∈ a.finalizers := by simpa using hfin
  simp [hdel, hfin, hmem, hprov, hns, hst]

theorem reconcile_model_denied (inp : ReconcileInput) (a : LLMAccess)
    (p : LLMProvider) (e : String) (hacc : inp.access = some a)
    (hdel : a.deletionRequested = false)
    (hfin : a.finalizers.contains llmAccessFinalizer = true)
    (hprov : inp.provider = some p)
    (hns : isNamespaceAllowed inp.nsLabels p = true)
    (hval : validateModels a.spec.models p = Except.error e)
    (hst : inp.statusUpdateOk = true) :
    reconcile inp = ⟨⟨false, 0⟩, none,
      some (setAccessCondition a inp.now conditionTypeReady "False"
        reasonModelNotAllowed e),
      [RAction.emitEvent "Warning" reasonModelNotAllowed, RAction.updateStatus]⟩ := by
  unfold reconcile
  rw [hacc]
  have hmem : llmAccessFinalizer ∈ a.finalizers := by simpa using hfin
  simp [hdel, hfin, hmem, hprov, hns, hval, hst]

theorem reconcile_deletion_branch (inp : ReconcileInput) (a : LLMAccess)
    (hacc : inp.access = some a) (hdel : a.deletionRequested = true)
    (hfin : a.finalizers.contains llmAccessFinalizer = true)
    (hupd : inp.updateOk = true) :
    reconcile inp = ⟨⟨false, 0⟩, none,
      some { a with
        finalizers := a.finalizers.filter (fun f => f ≠ llmAccessFinalizer) },
      [RAction.removeFinalizer, RAction.updateObject]⟩ := by
  unfold reconcile
  rw [hacc]
  have hmem : llmAccessFinalizer ∈ a.finalizers := by simpa using hfin
  simp [hdel, hfin, hmem, hupd]

/-- The condition list of setAccessCondition is setCondition on the status. -/
theorem setAccessCondition_conditions (a : LLMAccess) (now : Nat)
    (t s r m : String) :
    (setAccessCondition a now t s r m).status.conditions =
      setCondition a.generation now t s r m a.status.conditions := rfl

theorem validateModels_ok_iff (requested : List String) (p : LLMProvider) :
    validateModels requested p = Except.ok () ↔
      (p.spec.allowedModels = [] ∨ ∀ m ∈ requested, m ∈ p.spec.allowedModels) := by
  unfold validateModels
  by_cases ha : p.spec.allowedModels.isEmpty
  · have h0 : p.spec.allowedModels = [] := List.isEmpty_iff.mp ha
    simp [ha, h0]
  · have hne : p.spec.allowedModels ≠ [] := fun h => ha (List.isEmpty_iff.mpr h)
    simp only [ha, Bool.false_eq_true, if_false]
    by_cases hf :
        (requested.filter (fun m => ¬ p.spec.allowedModels.contains m)).isEmpty
    · have hall : ∀ m ∈ requested, m ∈ p.spec.allowedModels := by
        intro m hm
        have hnil := List.isEmpty_iff.mp hf
        have := List.filter_eq_nil_iff.mp hnil m hm
        simpa using this
      simp [hf, hne, hall]
    · have hnot : ¬ ∀ m ∈ requested, m ∈ p.spec.allowedModels := by
        intro hall
        apply hf
        apply List.isEmpty_iff.mpr
        apply List.filter_eq_nil_iff.mpr
        intro m hm
        simpa using hall m hm
      simp [hf, hne, hnot]

/-- C3: a grant in a namespace rejected by the provider's namespace-admission
predicate reaches Ready=False with reason NamespaceNotAllowed, the pass
returns an empty result (no requeue and no error, hence no automatic
re-reconciliation), and no provisioning of the target secret is attempted. -/
theorem c3_namespace_denied_no_requeue :
    ∀ (inp : ReconcileInput) (a : LLMAccess) (p : LLMProvider),
      inp.access = some a → a.deletionRequested = false →
      a.finalizers.contains llmAccessFinalizer = true →
      inp.provider = some p →
      isNamespaceAllowed inp.nsLabels p = false →
      inp.statusUpdateOk = true →
      (reconcile inp).result = ⟨false, 0⟩ ∧ (reconcile inp).err = none ∧
      RAction.provisionSecret ∉ (reconcile inp).actions ∧
      ∃ acc c, (reconcile inp).access = some acc ∧
        acc.status.conditions.find? (fun c => c.type == conditionTypeReady) = some c ∧
        c.status = "False" ∧ c.reason = reasonNamespaceNotAllowed := by
  intro inp a p hacc hdel hfin hprov hns hst
  rw [reconcile_namespace_denied inp a p hacc hdel hfin hprov hns hst]
  refine ⟨rfl, rfl, by simp, ?_⟩
  obtain ⟨c1, hfind, hty, hstt, hr, hm⟩ := setCondition_find a.generation inp.now
    conditionTypeReady "False" reasonNamespaceNotAllowed
    ("Namespace " ++ a.nsName ++ " is not allowed by LLMProvider " ++ p.name)
    a.status.conditions
  exact ⟨_, c1, rfl, hfind, hstt, hr⟩

/-- Witness for c3_namespace_denied_no_requeue on a concrete denied grant. -/
theorem c3_witness :
    (reconcile c3Input).result = ⟨false, 0⟩ ∧ (reconcile c3Input).err = none ∧
    RAction.provisionSecret ∉ (reconcile c3Input).actions ∧
    ∃ acc c, (reconcile c3Input).access = some acc ∧
      acc.status.conditions.find? (fun c => c.type == conditionTypeReady) = some c ∧
      c.status = "False" ∧ c.reason = reasonNamespaceNotAllowed :=
  c3_namespace_denied_no_requeue c3Input c3Access c3Provider rfl rfl (by decide)
    rfl (by decide) rfl

/-- C4: model validation succeeds exactly when the provider's allow-list is
empty or every requested model is allowed; on a violation the pass sets
Ready=False with reason ModelNotAllowed and returns an empty result, with no
requeue and no error. -/
theorem c4_capability_subset :
    (∀ (requested : List String) (p : LLMProvider),
      validateModels requested p = Except.ok () ↔
        (p.spec.allowedModels = [] ∨ ∀ m ∈ requested, m ∈ p.spec.allowedModels))
    ∧ (∀ (inp : ReconcileInput) (a : LLMAccess) (p : LLMProvider) (e : String),
      inp.access = some a → a.deletionRequested = false →
      a.finalizers.contains llmAccessFinalizer = true →
      inp.provider = some p → isNamespaceAllowed inp.nsLabels p = true →
      validateModels a.spec.models p = Except.error e →
      inp.statusUpdateOk = true →
      (reconcile inp).result = ⟨false, 0⟩ ∧ (reconcile inp).err = none ∧
      RAction.provisionSecret ∉ (reconcile inp).actions ∧
      ∃ acc c, (reconcile inp).access = some acc ∧
        acc.status.conditions.find? (fun c => c.type == conditionTypeReady) = some c ∧
        c.status = "False" ∧ c.reason = reasonModelNotAllowed) := by
  refine ⟨validateModels_ok_iff, ?_⟩
  intro inp a p e hacc hdel hfin hprov hns hval hst
  rw [reconcile_model_denied inp a p e hacc hdel hfin hprov hns hval hst]
  refine ⟨rfl, rfl, by simp, ?_⟩
  obtain ⟨c1, hfind, hty, hstt, hr, hm⟩ := setCondition_find a.generation inp.now
    conditionTypeReady "False" reasonModelNotAllowed e a.status.conditions
  exact ⟨_, c1, rfl, hfind, hstt, hr⟩

/-- Witness for c4_capability_subset on a concrete disallowed model. -/
theorem c4_witness :
    (reconcile c4Input).result = ⟨false, 0⟩ ∧ (reconcile c4Input).err = none ∧
    RAction.provisionSecret ∉ (reconcile c4Input).actions ∧
    ∃ acc c, (reconcile c4Input).access = some acc ∧
      acc.status.conditions.find? (fun c => c.type == conditionTypeReady) = some c ∧
      c.status = "False" ∧ c.reason = reasonModelNotAllowed :=
  c4_capability_subset.2 c4Input c4Access c4Provider
    ("models not allowed: gpt-4-turbo (allowed models: gpt-4o, gpt-4o-mini)")
    rfl rfl (by decide) rfl (by decide) rfl rfl

/-- C1: counterexample.  For a grant whose deletion is requested while the
finalizer is present, the reconciliation pass removes the finalizer without
ever invoking the strategy Cleanup: the action trace contains the finalizer
removal but no cleanup action, refuting the claim that the guard is removed
only after Cleanup returns success or already-absent. -/
theorem c1_counterexample_no_cleanup :
    RAction.cleanupSecret ∉ (reconcile c1Input).actions ∧
    RAction.removeFinalizer ∈ (reconcile c1Input).actions ∧
    (reconcile c1Input).access =
      some { c1Access with finalizers := [] } := by
  refine ⟨by decide, by decide, ?_⟩
  rfl

/-- C1 (amended): when deletion is requested and the finalizer is present, the
reconciler removes the finalizer unconditionally — it never invokes the
strategy Cleanup, leaving artifact deletion to the ownership-based garbage
collection — and exits without requeue; the ApiKey strategy Cleanup itself,
when invoked explicitly, treats an already-absent secret as success and
surfaces any other delete failure as an error. -/
theorem c1_deletion_skips_cleanup :
    (∀ (inp : ReconcileInput) (a : LLMAccess),
      inp.access = some a → a.deletionRequested = true →
      a.finalizers.contains llmAccessFinalizer = true → inp.updateOk = true →
      reconcile inp = ⟨⟨false, 0⟩, none,
        some { a with
          finalizers := a.finalizers.filter (fun f => f ≠ llmAccessFinalizer) },
        [RAction.removeFinalizer, RAction.updateObject]⟩ ∧
      RAction.cleanupSecret ∉ (reconcile inp).actions)
    ∧ apiKeyCleanup DeleteOutcome.notFound = Except.ok ()
    ∧ apiKeyCleanup DeleteOutcome.success = Except.ok ()
    ∧ (∀ e, apiKeyCleanup (DeleteOutcome.failure e) =
        Except.error ("failed to delete secret: " ++ e)) := by
  refine ⟨?_, rfl, rfl, fun e => rfl⟩
  intro inp a hacc hdel hfin hupd
  have h := reconcile_deletion_branch inp a hacc hdel hfin hupd
  refine ⟨h, ?_⟩
  rw [h]
  simp

/-- Witness for c1_deletion_skips_cleanup on a concrete deleting grant. -/
theorem c1_witness :
    reconcile c1Input = ⟨⟨false, 0⟩, none,
      some { c1Access with
        finalizers := c1Access.finalizers.filter (fun f => f ≠ llmAccessFinalizer) },
      [RAction.removeFinalizer, RAction.updateObject]⟩ ∧
    RAction.cleanupSecret ∉ (reconcile c1Input).actions :=
  c1_deletion_skips_cleanup.1 c1Input c1Access rfl rfl (by decide) rfl

/-- C9: starting from an empty condition list, any sequence of setCondition
calls leaves at most one entry per condition type; and in one call the entry
of the written type keeps its transition timestamp when the status value is
unchanged (a message-only change) and receives the current time exactly when
the status flips. -/
theorem c9_condition_invariants :
    (∀ ops : List CondOp, (condTypes (applyCondOps [] ops)).Nodup)
    ∧ (∀ (g n : Nat) (t s r m : String) (cs : List Condition) (c0 : Condition),
        cs.find? (fun c => c.type == t) = some c0 → c0.status = s →
        ∃ c1, (setCondition g n t s r m cs).find? (fun c => c.type == t) = some c1 ∧
          c1.lastTransitionTime = c0.lastTransitionTime)
    ∧ (∀ (g n : Nat) (t s r m : String) (cs : List Condition) (c0 : Condition),
        cs.find? (fun c => c.type == t) = some c0 → c0.status ≠ s →
        ∃ c1, (setCondition g n t s r m cs).find? (fun c => c.type == t) = some c1 ∧
          c1.lastTransitionTime = n ∧ c1.status = s) :=
  ⟨fun ops => applyCondOps_nodup ops [] (by simp [condTypes]),
   setCondition_time_preserved,
   setCondition_time_flipped⟩

/-- Witness for c9_condition_invariants: a message-only update keeps the
transition time 3 of the existing Ready condition. -/
theorem c9_witness :
    ∃ c1, (setCondition 1 5 "Ready" "True" "r2" "m2"
        [⟨"Ready", "True", "r1", "m1", 3, 1⟩]).find?
        (fun c => c.type == "Ready") = some c1 ∧
      c1.lastTransitionTime = 3 :=
  c9_condition_invariants.2.1 1 5 "Ready" "True" "r2" "m2"
    [⟨"Ready", "True", "r1", "m1", 3, 1⟩] ⟨"Ready", "True", "r1", "m1", 3, 1⟩
    (by decide) rfl

theorem injectCredentials_labels (pod : Pod) (access : LLMAccess) :
    (injectCredentials pod access).labels = pod.labels := by
  unfold injectCredentials
  rcases hv : access.spec.injection.volume with _ | vc
  · by_cases he : access.spec.injection.env.isEmpty <;> simp [he, injectEnvVars]
  · by_cases he : access.spec.injection.env.isEmpty <;>
      simp [he, injectEnvVars, injectVolume, hv]

theorem shouldInject_labels_eq (p1 p2 : Pod) (access : LLMAccess)
    (h : p1.labels = p2.labels) : shouldInject p1 access = shouldInject p2 access := by
  unfold shouldInject
  rcases access.spec.workloadSelector with _ | sel
  · rfl
  · rw [h]

theorem handle_fold (pod : Pod) (items : List LLMAccess) :
    ∀ (p : Pod) (ps : List String) (m : Bool), p.labels = pod.labels →
    items.foldl
      (fun (st : Pod × List String × Bool) acc =>
        if shouldInject st.1 acc then
          (injectCredentials st.1 acc, st.2.1 ++ [acc.spec.providerRefName], true)
        else st)
      (p, ps, m) =
    ((items.filter (fun acc => shouldInject pod acc)).foldl injectCredentials p,
     ps ++ (items.filter (fun acc => shouldInject pod acc)).map
       (fun acc => acc.spec.providerRefName),
     m || !(items.filter (fun acc => shouldInject pod acc)).isEmpty) := by
  induction items with
  | nil =>
    intro p ps m h
    simp
  | cons acc rest ih =>
    intro p ps m h
    by_cases hs : shouldInject pod acc = true
    · have hs1 : shouldInject p acc = true := by
        rw [shouldInject_labels_eq p pod acc h]
        exact hs
      have hlab : (injectCredentials p acc).labels = pod.labels := by
        rw [injectCredentials_labels]
        exact h
      simp only [List.foldl_cons, List.filter_cons, hs, if_true, hs1]
      rw [ih (injectCredentials p acc) (ps ++ [acc.spec.providerRefName]) true hlab]
      simp [List.isEmpty]
    · have hs0 : shouldInject pod acc = false := by
        cases hval : shouldInject pod acc
        · rfl
        · exact absurd hval hs
      have hs1 : shouldInject p acc = false := by
        rw [shouldInject_labels_eq p pod acc h]
        exact hs0
      simp only [List.foldl_cons, List.filter_cons, hs0, hs1, Bool.false_eq_true,
        if_false]
      exact ih p ps m h

/-- The response of Handle on a successfully decoded pod and grant list, as a
function of the grants whose selector matches the pod: zero matches allow the
pod unmodified, otherwise exactly the matching grants inject (in list order)
and the two tracking annotations are stamped. -/
theorem handle_ok_eq (pod : Pod) (items : List LLMAccess) :
    handle (Except.ok pod) (Except.ok items) =
      (if (items.filter (fun acc => shouldInject pod acc)).isEmpty then
        AdmissionResponse.allowed
          (if items.isEmpty then "no LLMAccess resources in namespace"
            else "no matching LLMAccess resources")
      else
        AdmissionResponse.patched
          { (items.filter (fun acc => shouldInject pod acc)).foldl
              injectCredentials pod with
            annotations := setAnn
              (setAnn
                (((items.filter (fun acc => shouldInject pod acc)).foldl
                  injectCredentials pod).annotations)
                injectedProvidersKey
                (String.intercalate ","
                  ((items.filter (fun acc => shouldInject pod acc)).map
                    (fun acc => acc.spec.providerRefName))))
              injectionStatusKey "injected" }) := by
  unfold handle
  by_cases hi : items.isEmpty
  · have hnil : items = [] := List.isEmpty_iff.mp hi
    subst hnil
    simp
  · simp only [hi, Bool.false_eq_true, if_false]
    rw [handle_fold pod items pod [] false rfl]
    by_cases hf : (items.filter (fun acc => shouldInject pod acc)).isEmpty
    · simp [hf, hi]
    · simp [hf, hi]

theorem lookup_setAnn_same (anns : List (String × String)) (k v : String) :
    lookupLabel k (setAnn anns k v) = some v := by
  induction anns with
  | nil => simp [setAnn, lookupLabel]
  | cons a rest ih =>
    by_cases hk : a.1 = k
    · simp [setAnn, hk, lookupLabel]
    · simp [setAnn, hk, lookupLabel, ih]

theorem lookup_setAnn_other (anns : List (String × String)) (k k2 v : String)
    (h : k2 ≠ k) : lookupLabel k2 (setAnn anns k v) = lookupLabel k2 anns := by
  have hkk : ¬ k = k2 := fun he => h he.symm
  induction anns with
  | nil => simp [setAnn, lookupLabel, hkk]
  | cons a rest ih =>
    rcases a with ⟨ak, av⟩
    by_cases hk : ak = k
    · subst hk
      simp [setAnn, lookupLabel, hkk]
    · simp [setAnn, lookupLabel, hk, ih]

/-- C5: the injector patches a pod using exactly the grants whose workload
selector matches the pod labels — grants in list order, only matching ones —
and a pod matching zero grants is allowed unmodified; when at least one grant
matches, the patched pod carries the injected-providers and injection-status
annotations. -/
theorem c5_injection_matching :
    (∀ (pod : Pod) (items : List LLMAccess),
      handle (Except.ok pod) (Except.ok items) =
        (if (items.filter (fun acc => shouldInject pod acc)).isEmpty then
          AdmissionResponse.allowed
            (if items.isEmpty then "no LLMAccess resources in namespace"
              else "no matching LLMAccess resources")
        else
          AdmissionResponse.patched
            { (items.filter (fun acc => shouldInject pod acc)).foldl
                injectCredentials pod with
              annotations := setAnn
                (setAnn
                  (((items.filter (fun acc => shouldInject pod acc)).foldl
                    injectCredentials pod).annotations)
                  injectedProvidersKey
                  (String.intercalate ","
                    ((items.filter (fun acc => shouldInject pod acc)).map
                      (fun acc => acc.spec.providerRefName))))
                injectionStatusKey "injected" }))
    ∧ (∀ (pod : Pod) (items : List LLMAccess),
      (items.filter (fun acc => shouldInject pod acc)).isEmpty = false →
      ∃ p2, handle (Except.ok pod) (Except.ok items) = AdmissionResponse.patched p2 ∧
        lookupLabel injectionStatusKey p2.annotations = some "injected" ∧
        lookupLabel injectedProvidersKey p2.annotations =
          some (String.intercalate ","
            ((items.filter (fun acc => shouldInject pod acc)).map
              (fun acc => acc.spec.providerRefName)))) := by
  refine ⟨handle_ok_eq, ?_⟩
  intro pod items hne
  rw [handle_ok_eq pod items]
  simp only [hne, Bool.false_eq_true, if_false]
  refine ⟨_, rfl, ?_, ?_⟩
  · exact lookup_setAnn_same _ _ _
  · rw [lookup_setAnn_other _ _ _ _ (by decide), lookup_setAnn_same]

/-- Witness for c5_injection_matching: one matching grant yields a patched pod
carrying both tracking annotations. -/
theorem c5_witness :
    ∃ p2, handle (Except.ok c5Pod) (Except.ok [c5Access]) =
        AdmissionResponse.patched p2 ∧
      lookupLabel injectionStatusKey p2.annotations = some "injected" ∧
      lookupLabel injectedProvidersKey p2.annotations =
        some (String.intercalate ","
          (([c5Access].filter (fun acc => shouldInject c5Pod acc)).map
            (fun acc => acc.spec.providerRefName))) :=
  c5_injection_matching.2 c5Pod [c5Access] (by decide)

/-- C6: the injector rejects a pod-creation request exactly when decoding the
pod fails (an HTTP 400 client error), and a failing grant list yields
fail-open: the pod is allowed unmodified rather than rejected. -/
theorem c6_reject_iff_decode_failure :
    (∀ (d : Except String Pod) (l : Except String (List LLMAccess)),
      (∃ code msg, handle d l = AdmissionResponse.errored code msg) ↔
        ∃ e, d = Except.error e)
    ∧ (∀ (pod : Pod) (e : String),
      handle (Except.ok pod) (Except.error e) =
        AdmissionResponse.allowed
          "failed to list LLMAccess resources, allowing pod creation")
    ∧ (∀ e l, handle (Except.error e) l =
        AdmissionResponse.errored 400 ("failed to decode pod: " ++ e)) := by
  refine ⟨?_, fun pod e => rfl, fun e l => rfl⟩
  intro d l
  constructor
  · rintro ⟨code, msg, h⟩
    cases d with
    | error e => exact ⟨e, rfl⟩
    | ok pod =>
      exfalso
      cases l with
      | error e => simp [handle] at h
      | ok items =>
        rw [handle_ok_eq pod items] at h
        by_cases hf : (items.filter (fun acc => shouldInject pod acc)).isEmpty <;>
          simp [hf] at h
  · rintro ⟨e, rfl⟩
    exact ⟨400, "failed to decode pod: " ++ e, rfl⟩

/-- Witness for c6_reject_iff_decode_failure: a failed decode is rejected. -/
theorem c6_witness :
    ∃ code msg, handle (Except.error "bad") (Except.ok ([] : List LLMAccess)) =
      AdmissionResponse.errored code msg :=
  (c6_reject_iff_decode_failure.1 (Except.error "bad") (Except.ok [])).mpr ⟨"bad", rfl⟩

/-- Witness for c8_parse_sync_status_total: a conditions list with no Ready
entry yields ready=false and a non-empty message. -/
theorem c8_witness :
    (parseSyncStatus (some (some [CondEntry.notMap]))).ready = false ∧
    (parseSyncStatus (some (some [CondEntry.notMap]))).message ≠ "" :=
  c8_parse_sync_status_total.2.2.2.2 [CondEntry.notMap] rfl
